import Mathlib

/-!
Shallow embedding of `services/ui_backend_service/cache/async_search_artifacts.py`
and `services/ui_backend_service/cache/utils.py` (the cached artifact search).

Modelling conventions:
* Python values that may or may not be strings are modelled by `PyVal`
  (only `isinstance(loc, str)` is ever tested on them).
* Python `str.startswith` is modelled by a character-list comparison
  (`pyStartswith`), Python `sorted` by insertion sort, and
  `list(frozenset(...))` by `List.dedup` (a deterministic set order; when the
  input list has no duplicates the order is the input order).
* The external collaborators `get_artifact` and `decode` (the latter two of
  which are imported into the module but live outside the embedded sources)
  are modelled by an oracle `fetch : String -> FetchOutcome` describing, per
  location, what the fetch/decode pipeline does: success with a decoded
  content, a `TypeError` fallback (`str(content)` stored), `S3ObjectTooBig`,
  some other decode exception, or an exception raised by the fetch itself
  (which escapes the inner `try` of the source, since `get_artifact` is called
  before it).  Decoded content is represented by its stringification, which is
  the only observation the program ever makes of it.
* `json.dumps` / `json.loads` of the stored `[bool, value]` pairs is modelled
  as faithful storage of the pair.
* The optional `stream_output` sink is modelled by collecting the emitted
  events into a list, and fetch attempts are recorded in a list so that
  "no fetch is attempted" claims are statable.
* `hashlib.sha1(...).hexdigest()` is an external library call; it is taken as
  a parameter `sha1hex` of `cache_search_key`, which otherwise follows the
  source line by line.
-/

/-- A Python value as far as this program observes it: a string, or a
non-string (tagged so that distinct non-strings exist). -/
inductive PyVal where
  | str (s : String)
  | nonStr (tag : Nat)
deriving Repr, DecidableEq

/-- Python `isinstance(loc, str)` projection: the string when `loc` is one. -/
def PyVal.asStr : PyVal → Option String
  | .str s => some s
  | .nonStr _ => none

/-- Character-list version of Python `str.startswith`. -/
def charsIsInit : List Char → List Char → Bool
  | [], _ => true
  | _ :: _, [] => false
  | a :: as, b :: bs => a == b && charsIsInit as bs

/-- Python `s.startswith(pre)`. -/
def pyStartswith (s pre : String) : Bool :=
  charsIsInit pre.data s.data

/-- Fuel-indexed helper for `batchiter`; the fuel is the input length, enough
because each step with a positive batch size consumes at least one element. -/
def batchiterFuel : Nat → List α → Nat → List (List α)
  | 0, _, _ => []
  | _ + 1, [], _ => []
  | fuel + 1, a :: l, batch_size =>
    if batch_size = 0 then []
    else (a :: l).take batch_size ::
      batchiterFuel fuel ((a :: l).drop batch_size) batch_size

/-- `utils.batchiter`: repeatedly slice `batch_size` elements off the front of
the sequence, yielding each non-empty slice, stopping at the first empty one
(immediately when `batch_size = 0`, since `islice(it, 0)` is empty). -/
def batchiter (it : List α) (batch_size : Nat) : List (List α) :=
  batchiterFuel it.length it batch_size

/-- `S3_BATCH_SIZE = 512`. -/
def S3_BATCH_SIZE : Nat := 512

/-- Line 50 of the source:
`locations = list(frozenset(loc for loc in locations if isinstance(loc, str)))`. -/
def filterLocations (locations : List PyVal) : List String :=
  (locations.filterMap PyVal.asStr).dedup

/-- Line 52: `[loc for loc in locations if loc.startswith("s3://")]`. -/
def s3Locations (locations : List String) : List String :=
  locations.filter (fun loc => pyStartswith loc "s3://")

/-- Line 53: `num_s3_batches = max(1, len(locations) // S3_BATCH_SIZE)` —
note that the source divides the length of the whole filtered location list,
not of `s3_locations`. -/
def num_s3_batches (locations : List String) : Nat :=
  max 1 (locations.length / S3_BATCH_SIZE)

/-- Python string comparison (lexicographic on code points), on the
character lists. -/
def lexLe : List Char → List Char → Bool
  | [], _ => true
  | _ :: _, [] => false
  | a :: as, b :: bs =>
    if a < b then true else if b < a then false else lexLe as bs

/-- Python `s <= t` on strings. -/
def pyLe (s t : String) : Prop := lexLe s.data t.data = true

instance : DecidableRel pyLe := fun s t => Bool.decEq (lexLe s.data t.data) true

/-- `cache_search_key`, line 17:
`uniq_locs = list(frozenset(sorted(loc for loc in locations if isinstance(loc, str))))`.
Because the elements are inserted in sorted order, the resulting order is a
deterministic function of the set; it is modelled as the sorted list with
duplicates removed (`pyLe` is Python string comparison). -/
def cacheUniqLocs (locations : List PyVal) : List String :=
  ((locations.filterMap PyVal.asStr).insertionSort pyLe).dedup

/-- Line 18: `_string = "-".join(uniq_locs) + searchterm`. -/
def cachePrehash (locations : List PyVal) (searchterm : String) : String :=
  String.intercalate "-" (cacheUniqLocs locations) ++ searchterm

/-- Lines 15–19: the cache key, parametrised by the external
`sha1 -> hexdigest` function. -/
def cache_search_key (sha1hex : String → String) (locations : List PyVal)
    (searchterm : String) : String :=
  "artifactsearch:" ++ sha1hex (cachePrehash locations searchterm)

/-- Outcome of `decode(artifact_data)` followed by `json.dumps`, for one
location, as distinguished by the inner `try` of the source (lines 60–74).
Contents are represented by their stringification. -/
inductive DecodeOutcome where
  | value (s : String)
  | nonSerializable (s : String)
  | tooBig
  | raisedOther (msg : String)
deriving Repr, DecidableEq

/-- Outcome of `await get_artifact(s3_client, location)` followed by the
decode pipeline: either the fetch itself raises (escaping the inner `try`,
optionally carrying an `id` attribute), or it returns data whose decoding has
a `DecodeOutcome`. -/
inductive FetchOutcome where
  | raised (msg : String) (exId : Option String)
  | fetched (d : DecodeOutcome)
deriving Repr, DecidableEq

/-- An event pushed to `stream_output`. -/
inductive Event where
  | progress (fraction : Rat)
  | error (message : String) (id : String)
deriving Repr, DecidableEq

/-- Mutable state of the fetch loop: the `fetched` dict (as an association
list of `location -> (load_success, stored value)`), the emitted events, and
the locations for which a fetch was attempted. -/
structure BatchState where
  fetched : List (String × Bool × String)
  events : List Event
  attempts : List String
deriving Repr, DecidableEq

/-- The inner `for location in locations` loop (lines 58–74).  Returns the
updated state, plus the exception `(message, id)` when a fetch raised — in
that case the remaining locations of the batch are not processed, mirroring
the fact that `get_artifact` is called outside the inner `try`. -/
def processBatchLocs (fetch : String → FetchOutcome) :
    List String → BatchState → BatchState × Option (String × String)
  | [], st => (st, none)
  | location :: rest, st =>
    let st := { st with attempts := st.attempts ++ [location] }
    match fetch location with
    | .raised msg exId => (st, some (msg, exId.getD "generic-error"))
    | .fetched d =>
      let st :=
        match d with
        | .value s =>
            { st with fetched := st.fetched ++ [(location, true, s)] }
        | .nonSerializable s =>
            { st with fetched := st.fetched ++ [(location, true, s)] }
        | .tooBig =>
            { st with fetched := st.fetched ++ [(location, false, "object is too large")] }
        | .raisedOther msg =>
            { st with events := st.events ++ [Event.error msg "artifact-handle-failed"] }
      processBatchLocs fetch rest st

/-- The outer `for current_batch_number, locations in enumerate(batchiter(...), start=1)`
loop (lines 56–79): after each batch either the progress event
`current_batch_number / num_s3_batches` is emitted, or — when the batch
raised — the exception is reported with `getattr(ex, "id", "generic-error")`. -/
def runBatches (fetch : String → FetchOutcome) (nb : Nat) :
    Nat → List (List String) → BatchState → BatchState
  | _, [], st => st
  | k, batch :: rest, st =>
    let p := processBatchLocs fetch batch st
    let st' :=
      match p.2 with
      | none =>
          { p.1 with events := p.1.events ++ [Event.progress ((k : Rat) / (nb : Rat))] }
      | some e =>
          { p.1 with events := p.1.events ++ [Event.error e.1 e.2] }
    runBatches fetch nb (k + 1) rest st'

/-- One entry of the returned result map; `matchesTerm` models the `"matches"`
key of the source (`matches` itself is a reserved word in Lean). -/
structure SearchResultEntry where
  included : Bool
  matchesTerm : Bool
deriving Repr, DecidableEq

/-- The observable output of one `search_artifacts` call: the result map (as
an association list in Python dict insertion order), the events pushed to the
stream, and the fetch attempts made. -/
structure SearchOutput where
  results : List (String × SearchResultEntry)
  events : List Event
  attempts : List String
deriving Repr, DecidableEq

/-- Lines 89–98: one result entry.  `json.loads(fetched[key])` yields the
stored pair; for a missing key `load_success, value = False, None` and
`str(None) = "None"`. -/
def evalEntry (fetched : List (String × Bool × String)) (searchterm key : String) :
    SearchResultEntry :=
  match fetched.lookup key with
  | some lv => ⟨lv.1, lv.2 == searchterm⟩
  | none => ⟨false, "None" == searchterm⟩

/-- Line 56: the batches `batchiter(s3_locations, S3_BATCH_SIZE)` iterated by
the fetch loop. -/
def searchS3Batches (locations0 : List PyVal) : List (List String) :=
  batchiter (s3Locations (filterLocations locations0)) S3_BATCH_SIZE

/-- State after the whole batch loop of lines 56–79 (starting from the empty
`fetched` dict, no events, no attempts). -/
def searchLoopState (fetch : String → FetchOutcome) (locations0 : List PyVal) : BatchState :=
  runBatches fetch (num_s3_batches (filterLocations locations0)) 1
    (searchS3Batches locations0) ⟨[], [], []⟩

/-- The value of the variable `locations` after the batch loop: the loop
variable of line 56 shadows the filtered list of line 50, so when at least one
batch was yielded this is the last batch; only when `batchiter` yielded
nothing does it remain the filtered list. -/
def searchFinalLocations (locations0 : List PyVal) : List String :=
  (searchS3Batches locations0).getLast?.getD (filterLocations locations0)

/-- Body of the `for loc in other_locations` loop (lines 82–84): one
`artifact-not-accessible` error event, and
`fetched[loc] = json.dumps([False, 'object is not accessible'])`. -/
def addNotAccessible (st : BatchState) (loc : String) : BatchState :=
  { st with
      events := st.events ++ [Event.error "Artifact is not accessible" "artifact-not-accessible"],
      fetched := st.fetched ++ [(loc, false, "object is not accessible")] }

/-- State after the `other_locations` loop (lines 81–84), which reads the
rebound `locations` variable. -/
def searchFinalState (fetch : String → FetchOutcome) (locations0 : List PyVal) : BatchState :=
  ((searchFinalLocations locations0).filter
      (fun loc => !(pyStartswith loc "s3://"))).foldl addNotAccessible
    (searchLoopState fetch locations0)

/-- `search_artifacts` (lines 22–100), with the fetch/decode pipeline as an
oracle.  The result map of lines 87–98 iterates the rebound `locations`
variable (`searchFinalLocations`). -/
def search_artifacts (fetch : String → FetchOutcome) (locations0 : List PyVal)
    (searchterm : String) : SearchOutput :=
  let st := searchFinalState fetch locations0
  ⟨(searchFinalLocations locations0).map
      (fun key => (key, evalEntry st.fetched searchterm key)),
   st.events, st.attempts⟩

/-- Projection of the progress fractions out of an event list, in order. -/
def progressFractions (events : List Event) : List Rat :=
  events.filterMap (fun e => match e with | .progress f => some f | _ => none)

/-- Number of `artifact-not-accessible` error events in an event list. -/
def notAccessibleCount (events : List Event) : Nat :=
  (events.filter
    (fun e => e == Event.error "Artifact is not accessible" "artifact-not-accessible")).length

/-- Modelled from the spec: the key set the spec claims for the result map,
namely the deduplicated, string-typed, non-empty-filtered input location set
(the source filters only by `isinstance(loc, str)` and never drops empty
strings). -/
def specKeySet (locations : List PyVal) : List String :=
  ((locations.filterMap PyVal.asStr).filter (fun s => s ≠ "")).dedup

/-- Modelled from the spec: the progress denominator the spec claims,
`max(1, floor(total_s3_locations / batch_size))` with `total_s3_locations`
the number of filtered locations matching the `s3://` scheme. -/
def spec_num_batches (locations : List PyVal) : Nat :=
  max 1 ((s3Locations (filterLocations locations)).length / S3_BATCH_SIZE)

/-- What the inner loop stores in `fetched` for one decode outcome, when it
stores anything. -/
def storeEntry? : DecodeOutcome → Option (Bool × String)
  | .value s => some (true, s)
  | .nonSerializable s => some (true, s)
  | .tooBig => some (false, "object is too large")
  | .raisedOther _ => none

/-- The `fetched` entries contributed by a run of locations none of whose
fetches raise. -/
def okEntries (fetch : String → FetchOutcome) (locs : List String) :
    List (String × Bool × String) :=
  locs.filterMap (fun l =>
    match fetch l with
    | .fetched d => (storeEntry? d).map (fun bs => (l, bs))
    | .raised _ _ => none)

/-- The error events contributed by a run of locations none of whose fetches
raise: one `artifact-handle-failed` per unclassified decode exception. -/
def okEvents (fetch : String → FetchOutcome) (locs : List String) : List Event :=
  locs.filterMap (fun l =>
    match fetch l with
    | .fetched (.raisedOther m) => some (Event.error m "artifact-handle-failed")
    | _ => none)

/-- The events emitted by the batch loop when no fetch raises: for the batch
numbered `k`, its `artifact-handle-failed` events followed by the progress
event `k / nb`. -/
def okBatchEvents (fetch : String → FetchOutcome) (nb : Nat) :
    Nat → List (List String) → List Event
  | _, [] => []
  | k, b :: rest =>
    okEvents fetch b ++ [Event.progress ((k : Rat) / (nb : Rat))] ++
      okBatchEvents fetch nb (k + 1) rest

/-- Distinct non-s3 location strings used by concrete inputs: `'a'` followed
by `i` copies of `'b'`. -/
def padA (i : Nat) : String := ⟨'a' :: List.replicate i 'b'⟩

/-- Distinct s3 location strings used by concrete inputs: `"s3://"` followed
by `i` copies of `'b'`. -/
def padS3 (i : Nat) : String :=
  ⟨'s' :: '3' :: ':' :: '/' :: '/' :: List.replicate i 'b'⟩

/-- A fetch oracle on which every location decodes to the value `"hello"`. -/
def okFetch (_ : String) : FetchOutcome :=
  FetchOutcome.fetched (DecodeOutcome.value "hello")

/-- A fetch oracle raising only on `"s3://a"`. -/
def raiseOnA (loc : String) : FetchOutcome :=
  if loc = "s3://a" then FetchOutcome.raised "boom" none
  else FetchOutcome.fetched (DecodeOutcome.value "hello")

/-- A fetch oracle whose decode raises an unclassified exception only on
`"s3://a"`. -/
def decodeErrOnA (loc : String) : FetchOutcome :=
  if loc = "s3://a" then FetchOutcome.fetched (DecodeOutcome.raisedOther "bad pickle")
  else FetchOutcome.fetched (DecodeOutcome.value "hello")

/-- Concrete input of 1024 distinct non-s3 locations plus one s3 location. -/
def c6input : List PyVal :=
  ((List.range 1024).map fun i => PyVal.str (padA i)) ++ [PyVal.str "s3://x"]

/-- Concrete input of 513 distinct s3 locations (two fetch batches). -/
def c7input : List PyVal :=
  (List.range 513).map fun i => PyVal.str (padS3 i)

/-! ### Lemmas about `batchiter` -/

theorem batchiterFuel_nil (f n : Nat) : batchiterFuel f ([] : List α) n = [] := by
  cases f <;> rfl

theorem batchiterFuel_congr :
    ∀ (f₁ : Nat) (l : List α) (f₂ n : Nat), l.length ≤ f₁ → l.length ≤ f₂ →
      batchiterFuel f₁ l n = batchiterFuel f₂ l n := by
  intro f₁
  induction f₁ with
  | zero =>
    intro l f₂ n h₁ _
    have : l = [] := List.eq_nil_of_length_eq_zero (Nat.le_zero.mp h₁)
    subst this
    rw [batchiterFuel_nil, batchiterFuel_nil]
  | succ f₁ ih =>
    intro l f₂ n h₁ h₂
    cases l with
    | nil => rw [batchiterFuel_nil, batchiterFuel_nil]
    | cons a l' =>
      cases f₂ with
      | zero => simp at h₂
      | succ f₂ =>
        show (if n = 0 then [] else _) = (if n = 0 then [] else _)
        by_cases hn : n = 0
        · simp [hn]
        · simp only [if_neg hn]
          have hd : ((a :: l').drop n).length ≤ f₁ := by
            simp only [List.length_drop, List.length_cons]
            simp only [List.length_cons] at h₁
            omega
          have hd₂ : ((a :: l').drop n).length ≤ f₂ := by
            simp only [List.length_drop, List.length_cons]
            simp only [List.length_cons] at h₂
            omega
          rw [ih _ _ _ hd hd₂]

theorem batchiter_cons (l : List α) (n : Nat) (hl : l ≠ []) (hn : n ≠ 0) :
    batchiter l n = l.take n :: batchiter (l.drop n) n := by
  cases l with
  | nil => exact absurd rfl hl
  | cons a l' =>
    show (if n = 0 then [] else _) = _
    rw [if_neg hn]
    refine congrArg _ ?_
    exact batchiterFuel_congr _ _ _ _ (by simp [List.length_drop]; omega) le_rfl

theorem batchiter_flatten_aux {α} (n : Nat) (hn : 0 < n) :
    ∀ (N : Nat) (l : List α), l.length ≤ N → (batchiter l n).flatten = l := by
  intro N
  induction N with
  | zero =>
    intro l h
    have : l = [] := List.eq_nil_of_length_eq_zero (Nat.le_zero.mp h)
    subst this; rfl
  | succ N ih =>
    intro l h
    cases l with
    | nil => rfl
    | cons a l' =>
      rw [batchiter_cons _ _ (by simp) (Nat.pos_iff_ne_zero.mp hn)]
      rw [List.flatten_cons, ih _ (by simp only [List.length_drop, List.length_cons] at *; omega)]
      exact List.take_append_drop n (a :: l')

theorem batchiter_flatten {α} (n : Nat) (hn : 0 < n) (l : List α) :
    (batchiter l n).flatten = l :=
  batchiter_flatten_aux n hn l.length l le_rfl

theorem batchiter_batches_aux {α} (n : Nat) (hn : 0 < n) :
    ∀ (N : Nat) (l : List α), l.length ≤ N →
      ∀ b ∈ batchiter l n, b ≠ [] ∧ b.length ≤ n := by
  intro N
  induction N with
  | zero =>
    intro l h b hb
    have : l = [] := List.eq_nil_of_length_eq_zero (Nat.le_zero.mp h)
    subst this; simp [batchiter, batchiterFuel] at hb
  | succ N ih =>
    intro l h b hb
    cases l with
    | nil => simp [batchiter, batchiterFuel] at hb
    | cons a l' =>
      rw [batchiter_cons _ _ (by simp) (Nat.pos_iff_ne_zero.mp hn)] at hb
      rcases List.mem_cons.mp hb with hb | hb
      · subst hb
        constructor
        · obtain ⟨m, rfl⟩ := Nat.exists_eq_succ_of_ne_zero (Nat.pos_iff_ne_zero.mp hn)
          simp [List.take_succ_cons]
        · exact List.length_take_le n _
      · exact ih _ (by simp only [List.length_drop, List.length_cons] at *; omega) b hb

theorem batchiter_batches {α} (n : Nat) (hn : 0 < n) (l : List α) :
    ∀ b ∈ batchiter l n, b ≠ [] ∧ b.length ≤ n :=
  batchiter_batches_aux n hn l.length l le_rfl

theorem batchiter_ne_nil {α} (n : Nat) (hn : 0 < n) (l : List α) (hl : l ≠ []) :
    batchiter l n ≠ [] := by
  rw [batchiter_cons l n hl (Nat.pos_iff_ne_zero.mp hn)]
  exact List.cons_ne_nil _ _

/-- C9: for every sequence and every positive batch size, `batchiter` yields
non-empty batches each of size at most the batch size, whose concatenation in
yield order is the input sequence in its original order, and an empty input
yields zero batches. -/
theorem C9_batchiter_contract {α} (l : List α) (n : Nat) (hn : 0 < n) :
    (batchiter l n).flatten = l ∧
    (∀ b ∈ batchiter l n, b ≠ [] ∧ b.length ≤ n) ∧
    batchiter ([] : List α) n = [] :=
  ⟨batchiter_flatten n hn l, batchiter_batches n hn l, rfl⟩

theorem C9_batchiter_contract_witness :
    0 < 2 ∧
    ((batchiter [1, 2, 3, 4, 5] 2).flatten = [1, 2, 3, 4, 5] ∧
      (∀ b ∈ batchiter [1, 2, 3, 4, 5] 2, b ≠ [] ∧ b.length ≤ 2) ∧
      batchiter ([] : List Nat) 2 = []) :=
  ⟨by decide, C9_batchiter_contract [1, 2, 3, 4, 5] 2 (by decide)⟩


/-! ### Lemmas about `cache_search_key` -/

theorem lexLe_total : ∀ a b : List Char, lexLe a b = true ∨ lexLe b a = true := by
  intro a
  induction a with
  | nil => intro b; left; rfl
  | cons x xs ih =>
    intro b
    cases b with
    | nil => right; rfl
    | cons y ys =>
      rcases lt_trichotomy x y with h | h | h
      · left; simp [lexLe, h]
      · subst h
        rcases ih ys with h2 | h2
        · left; simp [lexLe, lt_irrefl, h2]
        · right; simp [lexLe, lt_irrefl, h2]
      · right; simp [lexLe, h]

theorem lexLe_trans :
    ∀ a b c : List Char, lexLe a b = true → lexLe b c = true → lexLe a c = true := by
  intro a
  induction a with
  | nil => intro b c _ _; rfl
  | cons x xs ih =>
    intro b c h1 h2
    cases b with
    | nil => simp [lexLe] at h1
    | cons y ys =>
      cases c with
      | nil => simp [lexLe] at h2
      | cons z zs =>
        rcases lt_trichotomy x y with hxy | hxy | hxy
        · rcases lt_trichotomy y z with hyz | hyz | hyz
          · simp [lexLe, lt_trans hxy hyz]
          · subst hyz; simp [lexLe, hxy]
          · simp [lexLe, hyz, asymm hyz] at h2
        · subst hxy
          simp only [lexLe, lt_irrefl, if_false] at h1
          rcases lt_trichotomy x z with hyz | hyz | hyz
          · simp [lexLe, hyz]
          · subst hyz
            simp only [lexLe, lt_irrefl, if_false] at h2 ⊢
            exact ih ys zs h1 h2
          · simp [lexLe, hyz, asymm hyz] at h2
        · simp [lexLe, hxy, asymm hxy] at h1

theorem lexLe_antisymm :
    ∀ a b : List Char, lexLe a b = true → lexLe b a = true → a = b := by
  intro a
  induction a with
  | nil =>
    intro b _ h2
    cases b with
    | nil => rfl
    | cons y ys => simp [lexLe] at h2
  | cons x xs ih =>
    intro b h1 h2
    cases b with
    | nil => simp [lexLe] at h1
    | cons y ys =>
      rcases lt_trichotomy x y with hxy | hxy | hxy
      · simp [lexLe, hxy, asymm hxy] at h2
      · subst hxy
        simp only [lexLe, lt_irrefl, if_false] at h1 h2
        rw [ih ys h1 h2]
      · simp [lexLe, hxy, asymm hxy] at h1

theorem cacheUniqLocs_eq_of_same_set (l1 l2 : List PyVal)
    (h : ∀ v : PyVal, v ∈ l1 ↔ v ∈ l2) : cacheUniqLocs l1 = cacheUniqLocs l2 := by
  haveI htot : IsTotal String pyLe := ⟨fun a b => lexLe_total a.data b.data⟩
  haveI htrans : IsTrans String pyLe :=
    ⟨fun a b c => lexLe_trans a.data b.data c.data⟩
  haveI hanti : IsAntisymm String pyLe := by
    refine ⟨fun a b h1 h2 => ?_⟩
    exact String.ext (lexLe_antisymm a.data b.data h1 h2)
  have hmem : ∀ s : String,
      s ∈ l1.filterMap PyVal.asStr ↔ s ∈ l2.filterMap PyVal.asStr := by
    intro s
    simp only [List.mem_filterMap]
    constructor
    · rintro ⟨v, hv, hs⟩; exact ⟨v, (h v).mp hv, hs⟩
    · rintro ⟨v, hv, hs⟩; exact ⟨v, (h v).mpr hv, hs⟩
  have hs1 : List.Sorted pyLe (cacheUniqLocs l1) :=
    List.Pairwise.sublist (List.dedup_sublist _)
      (List.sorted_insertionSort pyLe (l1.filterMap PyVal.asStr))
  have hs2 : List.Sorted pyLe (cacheUniqLocs l2) :=
    List.Pairwise.sublist (List.dedup_sublist _)
      (List.sorted_insertionSort pyLe (l2.filterMap PyVal.asStr))
  refine List.eq_of_perm_of_sorted ?_ hs1 hs2
  refine (List.perm_ext_iff_of_nodup (List.nodup_dedup _) (List.nodup_dedup _)).mpr ?_
  intro s
  rw [List.mem_dedup, List.mem_dedup,
    (List.perm_insertionSort pyLe _).mem_iff,
    (List.perm_insertionSort pyLe _).mem_iff]
  exact hmem s

/-- C8: two calls whose location collections are equal as sets and whose
search terms are equal produce the identical cache key, for any digest
function: the key is a function of the sorted deduplicated string-typed
location set and the raw search term. -/
theorem C8_cache_key_set_invariant (sha1hex : String → String) (l1 l2 : List PyVal)
    (searchterm : String) (h : ∀ v : PyVal, v ∈ l1 ↔ v ∈ l2) :
    cache_search_key sha1hex l1 searchterm = cache_search_key sha1hex l2 searchterm := by
  unfold cache_search_key cachePrehash
  rw [cacheUniqLocs_eq_of_same_set l1 l2 h]

theorem C8_cache_key_set_invariant_witness :
    cache_search_key id [PyVal.str "s3://b", PyVal.str "s3://a"] "q" =
      cache_search_key id [PyVal.str "s3://a", PyVal.str "s3://b"] "q" :=
  C8_cache_key_set_invariant id [PyVal.str "s3://b", PyVal.str "s3://a"]
    [PyVal.str "s3://a", PyVal.str "s3://b"] "q"
    (by
      intro v
      simp only [List.mem_cons, List.not_mem_nil, or_false]
      tauto)

/-- C10: `cache_search_key` is not injective on (location set, search term):
the distinct deduplicated location sets from `["a", "b"]` and `["a-b"]` have
identical pre-hash strings (joining with `"-"` erases the element
boundaries), hence the identical cache key for any digest function and any
search term, so one request can be served the cached result of the other. -/
theorem C10_cache_key_collision (sha1hex : String → String) (searchterm : String) :
    cache_search_key sha1hex [PyVal.str "a", PyVal.str "b"] searchterm =
      cache_search_key sha1hex [PyVal.str "a-b"] searchterm ∧
    cacheUniqLocs [PyVal.str "a", PyVal.str "b"] ≠ cacheUniqLocs [PyVal.str "a-b"] ∧
    cachePrehash [PyVal.str "a", PyVal.str "b"] searchterm =
      cachePrehash [PyVal.str "a-b"] searchterm := by
  have h1 : cacheUniqLocs [PyVal.str "a", PyVal.str "b"] = ["a", "b"] := by decide
  have h2 : cacheUniqLocs [PyVal.str "a-b"] = ["a-b"] := by decide
  have hp : cachePrehash [PyVal.str "a", PyVal.str "b"] searchterm =
      cachePrehash [PyVal.str "a-b"] searchterm := by
    unfold cachePrehash
    rw [h1, h2]
    congr 1
  refine ⟨?_, by rw [h1, h2]; decide, hp⟩
  unfold cache_search_key
  rw [hp]

/-! ### Lemmas about the fetch loop and the assembled results -/

theorem lookup_mem {β : Type} {l : List (String × β)} {k : String} {v : β}
    (h : l.lookup k = some v) : (k, v) ∈ l := by
  induction l with
  | nil => simp [List.lookup] at h
  | cons p rest ih =>
    obtain ⟨a, b⟩ := p
    rw [List.lookup_cons] at h
    cases hk : (k == a) with
    | true =>
      rw [hk] at h
      obtain rfl : b = v := by injection h
      obtain rfl : k = a := by simpa using hk
      exact List.mem_cons_self _ _
    | false =>
      rw [hk] at h
      exact List.mem_cons_of_mem _ (ih h)

theorem lookup_append_not_mem {β : Type} {l₁ : List (String × β)} (l₂ : List (String × β))
    {k : String} (h : k ∉ l₁.map Prod.fst) :
    (l₁ ++ l₂).lookup k = l₂.lookup k := by
  induction l₁ with
  | nil => rfl
  | cons p rest ih =>
    obtain ⟨a, b⟩ := p
    have hka : (k == a) = false := by
      simp only [List.map_cons, List.mem_cons] at h
      simpa using fun heq => h (Or.inl heq)
    rw [List.cons_append, List.lookup_cons, hka]
    exact ih (fun hm => h (by simp only [List.map_cons, List.mem_cons]; exact Or.inr hm))

theorem lookup_map_pair {β : Type} (g : String → β) :
    ∀ (l : List String) (k : String), k ∈ l →
      (l.map (fun x => (x, g x))).lookup k = some (g k) := by
  intro l
  induction l with
  | nil => intro k hk; simp at hk
  | cons a rest ih =>
    intro k hk
    rw [List.map_cons, List.lookup_cons]
    by_cases hka : k = a
    · subst hka
      rw [show (k == k) = true by simp]
    · rw [show (k == a) = false by simpa using hka]
      exact ih k (by rcases List.mem_cons.mp hk with h | h; exact absurd h hka; exact h)

theorem foldl_addNotAccessible :
    ∀ (locs : List String) (st : BatchState),
      locs.foldl addNotAccessible st =
        { fetched := st.fetched ++ locs.map (fun loc => (loc, false, "object is not accessible")),
          events := st.events ++
            locs.map (fun _ => Event.error "Artifact is not accessible" "artifact-not-accessible"),
          attempts := st.attempts } := by
  intro locs
  induction locs with
  | nil => intro st; simp
  | cons a rest ih =>
    intro st
    rw [List.foldl_cons, ih]
    simp [addNotAccessible, List.append_assoc]

theorem search_results_keys (fetch : String → FetchOutcome) (locs : List PyVal)
    (t : String) :
    (search_artifacts fetch locs t).results.map Prod.fst = searchFinalLocations locs := by
  simp only [search_artifacts, List.map_map]
  exact List.map_id _

theorem processBatchLocs_fetched_mem (fetch : String → FetchOutcome) :
    ∀ (locs : List String) (st : BatchState) (e : String × Bool × String),
      e ∈ (processBatchLocs fetch locs st).1.fetched →
      e ∈ st.fetched ∨ e.2.1 = true ∨ e.2.2 = "object is too large" := by
  intro locs
  induction locs with
  | nil => intro st e he; exact Or.inl he
  | cons loc rest ih =>
    intro st e he
    rcases hf : fetch loc with ⟨m, i⟩ | d
    · simp only [processBatchLocs, hf] at he
      exact Or.inl he
    · cases d with
      | value s =>
        simp only [processBatchLocs, hf] at he
        rcases ih _ e he with hmem | h
        · rcases List.mem_append.mp hmem with h1 | h1
          · exact Or.inl h1
          · right; left
            have he2 : e = (loc, true, s) := by simpa using h1
            rw [he2]
        · exact Or.inr h
      | nonSerializable s =>
        simp only [processBatchLocs, hf] at he
        rcases ih _ e he with hmem | h
        · rcases List.mem_append.mp hmem with h1 | h1
          · exact Or.inl h1
          · right; left
            have he2 : e = (loc, true, s) := by simpa using h1
            rw [he2]
        · exact Or.inr h
      | tooBig =>
        simp only [processBatchLocs, hf] at he
        rcases ih _ e he with hmem | h
        · rcases List.mem_append.mp hmem with h1 | h1
          · exact Or.inl h1
          · right; right
            have he2 : e = (loc, false, "object is too large") := by simpa using h1
            rw [he2]
        · exact Or.inr h
      | raisedOther m =>
        simp only [processBatchLocs, hf] at he
        rcases ih _ e he with hmem | h
        · exact Or.inl hmem
        · exact Or.inr h

theorem runBatches_cons (fetch : String → FetchOutcome) (nb k : Nat)
    (batch : List String) (rest : List (List String)) (st : BatchState) :
    runBatches fetch nb k (batch :: rest) st =
      runBatches fetch nb (k + 1) rest
        (match (processBatchLocs fetch batch st).2 with
         | none =>
             { (processBatchLocs fetch batch st).1 with
                 events := (processBatchLocs fetch batch st).1.events ++
                   [Event.progress ((k : Rat) / (nb : Rat))] }
         | some e =>
             { (processBatchLocs fetch batch st).1 with
                 events := (processBatchLocs fetch batch st).1.events ++
                   [Event.error e.1 e.2] }) := rfl

theorem runBatches_fetched_mem (fetch : String → FetchOutcome) (nb : Nat) :
    ∀ (batches : List (List String)) (k : Nat) (st : BatchState) (e : String × Bool × String),
      e ∈ (runBatches fetch nb k batches st).fetched →
      e ∈ st.fetched ∨ e.2.1 = true ∨ e.2.2 = "object is too large" := by
  intro batches
  induction batches with
  | nil => intro k st e he; exact Or.inl he
  | cons batch rest ih =>
    intro k st e he
    rw [runBatches_cons] at he
    rcases hp : (processBatchLocs fetch batch st).2 with _ | ex
    · rw [hp] at he
      rcases ih _ _ e he with hmem | h
      · exact processBatchLocs_fetched_mem fetch batch st e hmem
      · exact Or.inr h
    · rw [hp] at he
      rcases ih _ _ e he with hmem | h
      · exact processBatchLocs_fetched_mem fetch batch st e hmem
      · exact Or.inr h

theorem searchFinalState_fetched_mem (fetch : String → FetchOutcome)
    (locs : List PyVal) (e : String × Bool × String)
    (he : e ∈ (searchFinalState fetch locs).fetched) :
    e.2.1 = true ∨ e.2.2 = "object is too large" ∨ e.2.2 = "object is not accessible" := by
  unfold searchFinalState at he
  rw [foldl_addNotAccessible] at he
  rcases List.mem_append.mp he with h1 | h1
  · unfold searchLoopState at h1
    rcases runBatches_fetched_mem fetch _ _ _ _ e h1 with hmem | h
    · simp at hmem
    · tauto
  · rcases List.mem_map.mp h1 with ⟨loc, _, hloc⟩
    right; right
    rw [← hloc]

/-- C3 as stated is false: the sentinel string stored for a failed location is compared
against the search term, so with searchterm `"object is not accessible"` the
non-s3 location `"x"` yields `included = false` together with
`matches = true`. -/
theorem C3_counterexample :
    ("x", ({ included := false, matchesTerm := true } : SearchResultEntry)) ∈
      (search_artifacts okFetch [PyVal.str "x"] "object is not accessible").results := by
  decide

/-- C3 (amended): `included = false` implies `matches = false` for every
entry, provided the search term differs from the three sentinel strings that
the code stores (or stringifies) for non-included locations: `"None"`
(`str(None)` for locations absent from the fetched map),
`"object is too large"` and `"object is not accessible"`. -/
theorem C3_included_false_implies_no_match (fetch : String → FetchOutcome)
    (locs : List PyVal) (term : String)
    (h1 : term ≠ "None") (h2 : term ≠ "object is too large")
    (h3 : term ≠ "object is not accessible") :
    ∀ key e, (key, e) ∈ (search_artifacts fetch locs term).results →
      e.included = false → e.matchesTerm = false := by
  intro key e hmem hinc
  simp only [search_artifacts, List.mem_map] at hmem
  obtain ⟨key', _, heq⟩ := hmem
  have he : e = evalEntry (searchFinalState fetch locs).fetched term key' := by
    have h := congrArg Prod.snd heq
    simpa using h.symm
  subst he
  rcases hlk : (searchFinalState fetch locs).fetched.lookup key' with _ | ⟨b, s⟩
  · show (evalEntry (searchFinalState fetch locs).fetched term key').matchesTerm = false
    unfold evalEntry
    rw [hlk]
    exact beq_eq_false_iff_ne.mpr (Ne.symm h1)
  · have hb : b = false := by
      have : (evalEntry (searchFinalState fetch locs).fetched term key').included = false :=
        hinc
      unfold evalEntry at this
      rw [hlk] at this
      exact this
    have hmem2 := lookup_mem hlk
    show (evalEntry (searchFinalState fetch locs).fetched term key').matchesTerm = false
    unfold evalEntry
    rw [hlk]
    rcases searchFinalState_fetched_mem fetch locs _ hmem2 with ht | hs | hs
    · rw [hb] at ht
      exact absurd ht (by simp)
    · show (s == term) = false
      have hs2 : s = "object is too large" := hs
      rw [hs2]
      exact beq_eq_false_iff_ne.mpr (Ne.symm h2)
    · show (s == term) = false
      have hs2 : s = "object is not accessible" := hs
      rw [hs2]
      exact beq_eq_false_iff_ne.mpr (Ne.symm h3)

theorem C3_included_false_implies_no_match_witness :
    ({ included := false, matchesTerm := false } : SearchResultEntry).matchesTerm = false :=
  C3_included_false_implies_no_match okFetch [PyVal.str "x"] "q" (by decide) (by decide)
    (by decide) "x" { included := false, matchesTerm := false } (by decide) (by decide)

/-! ### Runs in which no fetch raises -/

theorem processBatchLocs_ok (fetch : String → FetchOutcome) :
    ∀ (locs : List String) (st : BatchState),
      (∀ loc ∈ locs, ∀ m i, fetch loc ≠ FetchOutcome.raised m i) →
      processBatchLocs fetch locs st =
        ({ fetched := st.fetched ++ okEntries fetch locs,
           events := st.events ++ okEvents fetch locs,
           attempts := st.attempts ++ locs }, none) := by
  intro locs
  induction locs with
  | nil =>
    intro st _
    simp [processBatchLocs, okEntries, okEvents]
  | cons loc rest ih =>
    intro st hok
    have hrest : ∀ l ∈ rest, ∀ m i, fetch l ≠ FetchOutcome.raised m i :=
      fun l hl => hok l (List.mem_cons_of_mem _ hl)
    rcases hf : fetch loc with ⟨m, i⟩ | d
    · exact absurd hf (hok loc (List.mem_cons_self _ _) m i)
    · cases d with
      | value s =>
        simp only [processBatchLocs, hf]
        rw [ih _ hrest]
        simp [okEntries, okEvents, storeEntry?, hf, List.filterMap_cons, List.append_assoc]
      | nonSerializable s =>
        simp only [processBatchLocs, hf]
        rw [ih _ hrest]
        simp [okEntries, okEvents, storeEntry?, hf, List.filterMap_cons, List.append_assoc]
      | tooBig =>
        simp only [processBatchLocs, hf]
        rw [ih _ hrest]
        simp [okEntries, okEvents, storeEntry?, hf, List.filterMap_cons, List.append_assoc]
      | raisedOther m =>
        simp only [processBatchLocs, hf]
        rw [ih _ hrest]
        simp [okEntries, okEvents, storeEntry?, hf, List.filterMap_cons, List.append_assoc]

theorem runBatches_ok (fetch : String → FetchOutcome) (nb : Nat) :
    ∀ (batches : List (List String)) (k : Nat) (st : BatchState),
      (∀ loc ∈ batches.flatten, ∀ m i, fetch loc ≠ FetchOutcome.raised m i) →
      runBatches fetch nb k batches st =
        { fetched := st.fetched ++ okEntries fetch batches.flatten,
          events := st.events ++ okBatchEvents fetch nb k batches,
          attempts := st.attempts ++ batches.flatten } := by
  intro batches
  induction batches with
  | nil =>
    intro k st _
    simp [runBatches, okBatchEvents, okEntries, okEvents]
  | cons batch rest ih =>
    intro k st hok
    have hbatch : ∀ loc ∈ batch, ∀ m i, fetch loc ≠ FetchOutcome.raised m i :=
      fun l hl => hok l (by simp only [List.flatten_cons, List.mem_append]; exact Or.inl hl)
    have hrest : ∀ loc ∈ rest.flatten, ∀ m i, fetch loc ≠ FetchOutcome.raised m i :=
      fun l hl => hok l (by simp only [List.flatten_cons, List.mem_append]; exact Or.inr hl)
    rw [runBatches_cons, processBatchLocs_ok fetch batch st hbatch]
    rw [ih _ _ hrest]
    simp [okEntries, okEvents, okBatchEvents, List.flatten_cons, List.filterMap_append,
      List.append_assoc]

theorem lookup_eq_none {β : Type} {l : List (String × β)} {k : String}
    (h : k ∉ l.map Prod.fst) : l.lookup k = none := by
  have h2 := lookup_append_not_mem ([] : List (String × β)) h
  simpa using h2

theorem okEntries_keys_not_mem (fetch : String → FetchOutcome) (locs : List String)
    (loc : String) (m : String)
    (hf : fetch loc = FetchOutcome.fetched (DecodeOutcome.raisedOther m)) :
    loc ∉ (okEntries fetch locs).map Prod.fst := by
  intro hmem
  rcases List.mem_map.mp hmem with ⟨e, he, hfst⟩
  rcases List.mem_filterMap.mp he with ⟨l, _, hsome⟩
  rcases hfl : fetch l with _ | d
  · rw [hfl] at hsome; exact Option.noConfusion hsome
  · rw [hfl] at hsome
    have hsome2 : Option.map (fun bs => (l, bs)) (storeEntry? d) = some e := hsome
    rcases hso : storeEntry? d with _ | bs
    · rw [hso] at hsome2; exact Option.noConfusion hsome2
    · rw [hso] at hsome2
      have he2 : e = (l, bs) := by injection hsome2 with h2; exact h2.symm
      have hl2 : l = loc := by rw [he2] at hfst; exact hfst
      rw [hl2, hf] at hfl
      have hd : d = DecodeOutcome.raisedOther m := by injection hfl with h3; exact h3.symm
      rw [hd] at hso
      exact Option.noConfusion hso

theorem mem_okEvents (fetch : String → FetchOutcome) (locs : List String)
    (loc : String) (m : String) (hloc : loc ∈ locs)
    (hf : fetch loc = FetchOutcome.fetched (DecodeOutcome.raisedOther m)) :
    Event.error m "artifact-handle-failed" ∈ okEvents fetch locs := by
  refine List.mem_filterMap.mpr ⟨loc, hloc, ?_⟩
  rw [hf]

theorem mem_okBatchEvents (fetch : String → FetchOutcome) (nb : Nat) (e : Event) :
    ∀ (batches : List (List String)) (k : Nat) (b : List String),
      b ∈ batches → e ∈ okEvents fetch b → e ∈ okBatchEvents fetch nb k batches := by
  intro batches
  induction batches with
  | nil => intro k b hb _; simp at hb
  | cons batch rest ih =>
    intro k b hb he
    rcases List.mem_cons.mp hb with hb | hb
    · subst hb
      simp only [okBatchEvents, List.mem_append]
      exact Or.inl (Or.inl he)
    · simp only [okBatchEvents, List.mem_append]
      exact Or.inr (ih (k + 1) b hb he)

/-- C1 as stated is false: for the input `["s3://a", "b"]` the string
location `"b"` is in the deduplicated string-typed (and non-empty) input set
the claim promises as the key set, yet it is missing from the result map,
because the batch loop variable shadows `locations`. -/
theorem C1_counterexample :
    "b" ∈ specKeySet [PyVal.str "s3://a", PyVal.str "b"] ∧
    "b" ∉ (search_artifacts okFetch [PyVal.str "s3://a", PyVal.str "b"] "t").results.map
        Prod.fst := by
  decide

/-- C1 (amended): the key set of the result map is the deduplicated
string-typed input set (empty strings are not dropped) only when that set
contains no `s3://` location; when `s3://` locations are present the key set
is exactly the last fetch batch, because the loop variable of the batch loop
shadows `locations`. -/
theorem C1_result_keys (fetch : String → FetchOutcome) (locs : List PyVal) (term : String) :
    (s3Locations (filterLocations locs) = [] →
      (search_artifacts fetch locs term).results.map Prod.fst = filterLocations locs) ∧
    (∀ b, (searchS3Batches locs).getLast? = some b →
      (search_artifacts fetch locs term).results.map Prod.fst = b) := by
  constructor
  · intro hns
    rw [search_results_keys]
    unfold searchFinalLocations searchS3Batches
    rw [hns]
    rfl
  · intro b hb
    rw [search_results_keys]
    unfold searchFinalLocations
    rw [hb]
    rfl

theorem C1_result_keys_witness :
    (search_artifacts okFetch [PyVal.str "s3://a", PyVal.str "b"] "t").results.map Prod.fst =
      ["s3://a"] :=
  (C1_result_keys okFetch [PyVal.str "s3://a", PyVal.str "b"] "t").2 ["s3://a"] (by decide)

/-- C2 as stated is false: an exception raised while fetching `"s3://a"`
aborts the remaining locations of its batch — `"s3://b"` is in the same
batch, its own fetch would succeed, yet no fetch is attempted for it and it
ends up non-included. -/
theorem C2_counterexample :
    (search_artifacts raiseOnA [PyVal.str "s3://a", PyVal.str "s3://b"] "t").attempts =
        ["s3://a"] ∧
    "s3://b" ∈ s3Locations (filterLocations [PyVal.str "s3://a", PyVal.str "s3://b"]) ∧
    raiseOnA "s3://b" = FetchOutcome.fetched (DecodeOutcome.value "hello") ∧
    (search_artifacts raiseOnA [PyVal.str "s3://a", PyVal.str "s3://b"] "t").results.lookup
        "s3://b" = some { included := false, matchesTerm := false } := by
  decide

/-- C2 (amended): an unclassified exception raised while decoding a single
location is caught, reported via an `artifact-handle-failed` error event,
and that location is excluded from the fetched map while every s3 location
is still attempted — provided no fetch-stage exception occurs.  (A fetch-stage
exception instead aborts the remaining locations of its batch, see the
counterexample.) -/
theorem C2_decode_error_isolation (fetch : String → FetchOutcome) (locs : List PyVal)
    (term : String)
    (hok : ∀ loc ∈ s3Locations (filterLocations locs), ∀ m i,
      fetch loc ≠ FetchOutcome.raised m i) :
    (search_artifacts fetch locs term).attempts = s3Locations (filterLocations locs) ∧
    ∀ loc ∈ s3Locations (filterLocations locs), ∀ m,
      fetch loc = FetchOutcome.fetched (DecodeOutcome.raisedOther m) →
      (searchLoopState fetch locs).fetched.lookup loc = none ∧
      Event.error m "artifact-handle-failed" ∈ (search_artifacts fetch locs term).events := by
  have hflat : (searchS3Batches locs).flatten = s3Locations (filterLocations locs) :=
    batchiter_flatten S3_BATCH_SIZE (by norm_num [S3_BATCH_SIZE]) _
  have hok' : ∀ loc ∈ (searchS3Batches locs).flatten, ∀ m i,
      fetch loc ≠ FetchOutcome.raised m i := by rw [hflat]; exact hok
  have hloop := runBatches_ok fetch (num_s3_batches (filterLocations locs))
      (searchS3Batches locs) 1 ⟨[], [], []⟩ hok'
  have hls : searchLoopState fetch locs =
      { fetched := okEntries fetch (searchS3Batches locs).flatten,
        events := okBatchEvents fetch (num_s3_batches (filterLocations locs)) 1
          (searchS3Batches locs),
        attempts := (searchS3Batches locs).flatten } := by
    unfold searchLoopState
    rw [hloop]
    simp
  constructor
  · show (searchFinalState fetch locs).attempts = _
    unfold searchFinalState
    rw [foldl_addNotAccessible]
    show (searchLoopState fetch locs).attempts = _
    rw [hls]
    exact hflat
  · intro loc hloc m hm
    constructor
    · rw [hls]
      exact lookup_eq_none (okEntries_keys_not_mem fetch _ loc m hm)
    · show Event.error m "artifact-handle-failed" ∈ (searchFinalState fetch locs).events
      unfold searchFinalState
      rw [foldl_addNotAccessible]
      have hmem2 : Event.error m "artifact-handle-failed" ∈ (searchLoopState fetch locs).events := by
        rw [hls]
        have hlf : loc ∈ (searchS3Batches locs).flatten := by rw [hflat]; exact hloc
        rcases List.mem_flatten.mp hlf with ⟨b, hb, hlb⟩
        exact mem_okBatchEvents fetch _ _ _ 1 b hb (mem_okEvents fetch b loc m hlb hm)
      exact List.mem_append_left _ hmem2

theorem decodeErrOnA_not_raised :
    ∀ loc m i, decodeErrOnA loc ≠ FetchOutcome.raised m i := by
  intro loc m i
  unfold decodeErrOnA
  split <;> exact fun h => FetchOutcome.noConfusion h

theorem okFetch_not_raised : ∀ loc m i, okFetch loc ≠ FetchOutcome.raised m i :=
  fun _ _ _ h => FetchOutcome.noConfusion h

theorem C2_decode_error_isolation_witness :
    (search_artifacts decodeErrOnA [PyVal.str "s3://a", PyVal.str "s3://b"] "t").attempts =
        s3Locations (filterLocations [PyVal.str "s3://a", PyVal.str "s3://b"]) ∧
    ((searchLoopState decodeErrOnA [PyVal.str "s3://a", PyVal.str "s3://b"]).fetched.lookup
        "s3://a" = none ∧
      Event.error "bad pickle" "artifact-handle-failed" ∈
        (search_artifacts decodeErrOnA [PyVal.str "s3://a", PyVal.str "s3://b"] "t").events) :=
  ⟨(C2_decode_error_isolation decodeErrOnA [PyVal.str "s3://a", PyVal.str "s3://b"] "t"
      (fun loc _ m i => decodeErrOnA_not_raised loc m i)).1,
   (C2_decode_error_isolation decodeErrOnA [PyVal.str "s3://a", PyVal.str "s3://b"] "t"
      (fun loc _ m i => decodeErrOnA_not_raised loc m i)).2 "s3://a" (by decide) "bad pickle"
     (by decide)⟩

theorem notAccessibleCount_map_const {β : Type} (l : List β) :
    notAccessibleCount (l.map fun _ =>
      Event.error "Artifact is not accessible" "artifact-not-accessible") = l.length := by
  induction l with
  | nil => rfl
  | cons a rest ih =>
    have hstep : notAccessibleCount ((a :: rest).map fun _ =>
        Event.error "Artifact is not accessible" "artifact-not-accessible") =
        notAccessibleCount (rest.map fun _ =>
          Event.error "Artifact is not accessible" "artifact-not-accessible") + 1 := by
      simp [notAccessibleCount, List.filter_cons]
    rw [hstep, ih]
    simp

/-- C4 as stated is false: when an `s3://` location is also present, a
non-s3 string location is dropped from the result map and no
`artifact-not-accessible` event is emitted for it, because the batch loop
variable shadows `locations`. -/
theorem C4_counterexample :
    pyStartswith "not-a-uri" "s3://" = false ∧
    "not-a-uri" ∈ filterLocations [PyVal.str "not-a-uri", PyVal.str "s3://a"] ∧
    (search_artifacts okFetch [PyVal.str "not-a-uri", PyVal.str "s3://a"] "q").results.lookup
        "not-a-uri" = none ∧
    notAccessibleCount
      (search_artifacts okFetch [PyVal.str "not-a-uri", PyVal.str "s3://a"] "q").events = 0 := by
  decide

/-- C4 (amended): when the filtered input contains no `s3://` location at
all and the search term is not the sentinel `"object is not accessible"`,
every (non-s3) location yields `{included: false, matches: false}`, exactly
one `artifact-not-accessible` error event is emitted per location, and no
fetch is attempted. -/
theorem C4_non_s3_location_handling (fetch : String → FetchOutcome) (locs : List PyVal)
    (term : String)
    (hns : s3Locations (filterLocations locs) = [])
    (hterm : term ≠ "object is not accessible") :
    (search_artifacts fetch locs term).attempts = [] ∧
    notAccessibleCount (search_artifacts fetch locs term).events =
      (filterLocations locs).length ∧
    ∀ loc ∈ filterLocations locs,
      (search_artifacts fetch locs term).results.lookup loc =
        some { included := false, matchesTerm := false } := by
  have hb : searchS3Batches locs = [] := by
    unfold searchS3Batches; rw [hns]; rfl
  have hfin : searchFinalLocations locs = filterLocations locs := by
    unfold searchFinalLocations; rw [hb]; rfl
  have hloop : searchLoopState fetch locs = ⟨[], [], []⟩ := by
    unfold searchLoopState; rw [hb]; rfl
  have hother : (searchFinalLocations locs).filter
      (fun loc => !(pyStartswith loc "s3://")) = filterLocations locs := by
    rw [hfin]
    apply List.filter_eq_self.mpr
    intro a ha
    have hns2 := List.filter_eq_nil_iff.mp hns a ha
    simpa using hns2
  have hfs : searchFinalState fetch locs =
      { fetched := (filterLocations locs).map
          (fun loc => (loc, false, "object is not accessible")),
        events := (filterLocations locs).map
          (fun _ => Event.error "Artifact is not accessible" "artifact-not-accessible"),
        attempts := [] } := by
    unfold searchFinalState
    rw [hother, hloop, foldl_addNotAccessible]
    simp
  refine ⟨?_, ?_, ?_⟩
  · show (searchFinalState fetch locs).attempts = []
    rw [hfs]
  · show notAccessibleCount (searchFinalState fetch locs).events = _
    rw [hfs]
    exact notAccessibleCount_map_const _
  · intro loc hloc
    have h1 : (search_artifacts fetch locs term).results.lookup loc =
        some (evalEntry (searchFinalState fetch locs).fetched term loc) := by
      show ((searchFinalLocations locs).map _).lookup loc = _
      rw [hfin]
      exact lookup_map_pair _ _ loc hloc
    rw [h1]
    have h2 : (searchFinalState fetch locs).fetched.lookup loc =
        some ((false : Bool), "object is not accessible") := by
      rw [hfs]
      exact lookup_map_pair (fun _ => ((false : Bool), "object is not accessible")) _ loc hloc
    have hbeq : ("object is not accessible" == term) = false :=
      beq_eq_false_iff_ne.mpr (Ne.symm hterm)
    show some (evalEntry (searchFinalState fetch locs).fetched term loc) = _
    unfold evalEntry
    rw [h2]
    show some (⟨false, ("object is not accessible" == term)⟩ : SearchResultEntry) = _
    rw [hbeq]

theorem C4_non_s3_location_handling_witness :
    (search_artifacts okFetch [PyVal.str "not-a-uri"] "q").attempts = [] ∧
    notAccessibleCount (search_artifacts okFetch [PyVal.str "not-a-uri"] "q").events = 1 ∧
    (search_artifacts okFetch [PyVal.str "not-a-uri"] "q").results.lookup "not-a-uri" =
      some { included := false, matchesTerm := false } := by
  obtain ⟨h1, h2, h3⟩ :=
    C4_non_s3_location_handling okFetch [PyVal.str "not-a-uri"] "q" (by decide) (by decide)
  refine ⟨h1, ?_, h3 "not-a-uri" (by decide)⟩
  rw [h2]
  decide

/-! ### Progress event lemmas -/

theorem progressFractions_append (l₁ l₂ : List Event) :
    progressFractions (l₁ ++ l₂) = progressFractions l₁ ++ progressFractions l₂ :=
  List.filterMap_append l₁ l₂ _

theorem progressFractions_map_const_error {β : Type} (msg eid : String) (l : List β) :
    progressFractions (l.map fun _ => Event.error msg eid) = [] := by
  induction l with
  | nil => rfl
  | cons a rest ih => simp [progressFractions, List.filterMap_cons, ih]

theorem processBatchLocs_events_progress (fetch : String → FetchOutcome) :
    ∀ (locs : List String) (st : BatchState),
      progressFractions ((processBatchLocs fetch locs st).1.events) =
        progressFractions st.events := by
  intro locs
  induction locs with
  | nil => intro st; rfl
  | cons loc rest ih =>
    intro st
    rcases hf : fetch loc with ⟨m, i⟩ | d
    · simp only [processBatchLocs, hf]
    · cases d with
      | value s =>
        simp only [processBatchLocs, hf]
        rw [ih]
      | nonSerializable s =>
        simp only [processBatchLocs, hf]
        rw [ih]
      | tooBig =>
        simp only [processBatchLocs, hf]
        rw [ih]
      | raisedOther m =>
        simp only [processBatchLocs, hf]
        rw [ih]
        show progressFractions (st.events ++ [Event.error m "artifact-handle-failed"]) = _
        rw [progressFractions_append]
        simp [progressFractions]

theorem runBatches_cons_ok (fetch : String → FetchOutcome) (nb k : Nat)
    (batch : List String) (rest : List (List String)) (st : BatchState)
    (hp : (processBatchLocs fetch batch st).2 = none) :
    runBatches fetch nb k (batch :: rest) st =
      runBatches fetch nb (k + 1) rest
        { (processBatchLocs fetch batch st).1 with
            events := (processBatchLocs fetch batch st).1.events ++
              [Event.progress ((k : Rat) / (nb : Rat))] } := by
  rw [runBatches_cons, hp]

theorem runBatches_cons_err (fetch : String → FetchOutcome) (nb k : Nat)
    (batch : List String) (rest : List (List String)) (st : BatchState)
    (ex : String × String)
    (hp : (processBatchLocs fetch batch st).2 = some ex) :
    runBatches fetch nb k (batch :: rest) st =
      runBatches fetch nb (k + 1) rest
        { (processBatchLocs fetch batch st).1 with
            events := (processBatchLocs fetch batch st).1.events ++
              [Event.error ex.1 ex.2] } := by
  rw [runBatches_cons, hp]

theorem runBatches_progress_shape (fetch : String → FetchOutcome) (nb : Nat) :
    ∀ (batches : List (List String)) (k : Nat) (st : BatchState),
      ∃ ks : List Nat,
        (∀ j ∈ ks, k ≤ j ∧ j < k + batches.length) ∧
        List.Pairwise (· < ·) ks ∧
        progressFractions (runBatches fetch nb k batches st).events =
          progressFractions st.events ++ ks.map (fun j : Nat => (j : Rat) / (nb : Rat)) := by
  intro batches
  induction batches with
  | nil =>
    intro k st
    exact ⟨[], by simp, by simp, by simp [runBatches]⟩
  | cons batch rest ih =>
    intro k st
    rcases hp : (processBatchLocs fetch batch st).2 with _ | ex
    · rw [runBatches_cons_ok fetch nb k batch rest st hp]
      obtain ⟨ks, hbnd, hpw, hev⟩ := ih (k + 1)
        { (processBatchLocs fetch batch st).1 with
            events := (processBatchLocs fetch batch st).1.events ++
              [Event.progress ((k : Rat) / (nb : Rat))] }
      refine ⟨k :: ks, ?_, ?_, ?_⟩
      · intro j hj
        rcases List.mem_cons.mp hj with rfl | hj
        · refine ⟨le_rfl, ?_⟩
          simp only [List.length_cons]
          omega
        · have := hbnd j hj
          simp only [List.length_cons] at *
          omega
      · refine List.pairwise_cons.mpr ⟨fun j hj => ?_, hpw⟩
        have := hbnd j hj
        omega
      · rw [hev]
        have h3 : progressFractions
            ({ (processBatchLocs fetch batch st).1 with
                events := (processBatchLocs fetch batch st).1.events ++
                  [Event.progress ((k : Rat) / (nb : Rat))] } : BatchState).events =
            progressFractions st.events ++ [(k : Rat) / (nb : Rat)] := by
          show progressFractions ((processBatchLocs fetch batch st).1.events ++ _) = _
          rw [progressFractions_append, processBatchLocs_events_progress]
          rfl
        rw [h3]
        simp [List.append_assoc]
    · rw [runBatches_cons_err fetch nb k batch rest st ex hp]
      obtain ⟨ks, hbnd, hpw, hev⟩ := ih (k + 1)
        { (processBatchLocs fetch batch st).1 with
            events := (processBatchLocs fetch batch st).1.events ++
              [Event.error ex.1 ex.2] }
      refine ⟨ks, ?_, hpw, ?_⟩
      · intro j hj
        have := hbnd j hj
        simp only [List.length_cons] at *
        omega
      · rw [hev]
        have h3 : progressFractions
            ({ (processBatchLocs fetch batch st).1 with
                events := (processBatchLocs fetch batch st).1.events ++
                  [Event.error ex.1 ex.2] } : BatchState).events =
            progressFractions st.events := by
          show progressFractions ((processBatchLocs fetch batch st).1.events ++ _) = _
          rw [progressFractions_append, processBatchLocs_events_progress]
          simp [progressFractions]
        rw [h3]

theorem progressFractions_okEvents (fetch : String → FetchOutcome) :
    ∀ locs : List String, progressFractions (okEvents fetch locs) = [] := by
  intro locs
  induction locs with
  | nil => rfl
  | cons loc rest ih =>
    rcases hf : fetch loc with ⟨m, i⟩ | d
    · simpa [okEvents, List.filterMap_cons, hf, progressFractions] using ih
    · cases d <;> simpa [okEvents, List.filterMap_cons, hf, progressFractions] using ih

theorem progressFractions_okBatchEvents (fetch : String → FetchOutcome) (nb : Nat) :
    ∀ (batches : List (List String)) (k : Nat),
      progressFractions (okBatchEvents fetch nb k batches) =
        (List.range' k batches.length).map (fun j : Nat => (j : Rat) / (nb : Rat)) := by
  intro batches
  induction batches with
  | nil => intro k; rfl
  | cons batch rest ih =>
    intro k
    show progressFractions (okEvents fetch batch ++ [Event.progress _] ++
      okBatchEvents fetch nb (k + 1) rest) = _
    rw [progressFractions_append, progressFractions_append,
      progressFractions_okEvents, ih]
    simp [List.range'_succ, progressFractions, List.length_cons]

theorem getLast?_range'_map (f : Nat → Rat) (k B : Nat) (hB : 0 < B) :
    ((List.range' k B).map f).getLast? = some (f (k + B - 1)) := by
  obtain ⟨B', rfl⟩ := Nat.exists_eq_succ_of_ne_zero (Nat.pos_iff_ne_zero.mp hB)
  rw [List.range'_1_concat, List.map_append]
  simp only [List.map_cons, List.map_nil]
  rw [List.getLast?_concat]
  have hE : k + B'.succ - 1 = k + B' := by omega
  rw [hE]

/-- C5 as stated is false: the input `["x"]` is a non-empty collection of
actionable (string-typed, non-empty) locations, yet no progress event is
emitted at all, so there is no final emitted value `1.0`: progress events are
only produced for `s3://` fetch batches. -/
theorem C5_counterexample :
    filterLocations [PyVal.str "x"] ≠ [] ∧
    progressFractions (search_artifacts okFetch [PyVal.str "x"] "t").events = [] := by
  decide

/-- C5 (amended): the emitted progress fractions are always strictly
increasing (hence monotonically non-decreasing), and — when at least one
`s3://` location is present and no fetch-stage exception occurs — the final
emitted value is `B / max(1, L / 512)` where `B` is the number of fetch
batches and `L` the number of all filtered locations.  This final value is
`1.0` only when those two quantities agree; it is below `1.0` when non-s3
locations inflate the denominator and above `1.0` when `ceil` and `floor`
disagree (e.g. 513 s3 locations), and no progress at all is emitted when no
`s3://` location is present. -/
theorem C5_progress_events (fetch : String → FetchOutcome) (locs : List PyVal)
    (term : String) :
    List.Pairwise (· < ·)
      (progressFractions (search_artifacts fetch locs term).events) ∧
    ((∀ loc ∈ s3Locations (filterLocations locs), ∀ m i,
        fetch loc ≠ FetchOutcome.raised m i) →
      s3Locations (filterLocations locs) ≠ [] →
      (progressFractions (search_artifacts fetch locs term).events).getLast? =
        some (((searchS3Batches locs).length : Rat) /
          ((num_s3_batches (filterLocations locs)) : Rat))) := by
  have hsp : progressFractions (search_artifacts fetch locs term).events =
      progressFractions (searchLoopState fetch locs).events := by
    show progressFractions (searchFinalState fetch locs).events = _
    unfold searchFinalState
    rw [foldl_addNotAccessible]
    show progressFractions ((searchLoopState fetch locs).events ++ _) = _
    rw [progressFractions_append, progressFractions_map_const_error]
    simp
  have hnb : (0 : Rat) < (num_s3_batches (filterLocations locs) : Rat) := by
    have h1 : 0 < num_s3_batches (filterLocations locs) :=
      Nat.lt_of_lt_of_le Nat.zero_lt_one (le_max_left 1 _)
    exact_mod_cast h1
  constructor
  · rw [hsp]
    obtain ⟨ks, hbnd, hpw, hev⟩ := runBatches_progress_shape fetch
      (num_s3_batches (filterLocations locs)) (searchS3Batches locs) 1 ⟨[], [], []⟩
    have hev2 : progressFractions (searchLoopState fetch locs).events =
        ks.map (fun j : Nat => (j : Rat) / ((num_s3_batches (filterLocations locs)) : Rat)) := by
      show progressFractions (runBatches fetch (num_s3_batches (filterLocations locs)) 1
        (searchS3Batches locs) ⟨[], [], []⟩).events = _
      rw [hev]
      rfl
    rw [hev2]
    refine List.Pairwise.map _ (fun a b hab => ?_) hpw
    exact (div_lt_div_iff_of_pos_right hnb).mpr (by exact_mod_cast hab)
  · intro hok hne
    have hflatten : (searchS3Batches locs).flatten = s3Locations (filterLocations locs) :=
      batchiter_flatten S3_BATCH_SIZE (by norm_num [S3_BATCH_SIZE]) _
    have hok' : ∀ loc ∈ (searchS3Batches locs).flatten, ∀ m i,
        fetch loc ≠ FetchOutcome.raised m i := by
      rw [hflatten]; exact hok
    have hloop := runBatches_ok fetch (num_s3_batches (filterLocations locs))
      (searchS3Batches locs) 1 ⟨[], [], []⟩ hok'
    rw [hsp]
    have hev3 : progressFractions (searchLoopState fetch locs).events =
        (List.range' 1 (searchS3Batches locs).length).map
          (fun j : Nat => (j : Rat) / ((num_s3_batches (filterLocations locs)) : Rat)) := by
      show progressFractions (runBatches fetch (num_s3_batches (filterLocations locs)) 1
        (searchS3Batches locs) ⟨[], [], []⟩).events = _
      rw [hloop]
      show progressFractions ((⟨[], [], []⟩ : BatchState).events ++
        okBatchEvents fetch (num_s3_batches (filterLocations locs)) 1
          (searchS3Batches locs)) = _
      rw [progressFractions_append, progressFractions_okBatchEvents]
      rfl
    rw [hev3]
    have hBpos : 0 < (searchS3Batches locs).length := by
      have hne2 : searchS3Batches locs ≠ [] :=
        batchiter_ne_nil S3_BATCH_SIZE (by norm_num [S3_BATCH_SIZE]) _ hne
      exact List.length_pos.mpr hne2
    rw [getLast?_range'_map _ 1 _ hBpos]
    have hE : 1 + (searchS3Batches locs).length - 1 = (searchS3Batches locs).length := by
      omega
    rw [hE]

theorem C5_progress_events_witness :
    List.Pairwise (· < ·)
      (progressFractions (search_artifacts okFetch [PyVal.str "s3://a"] "t").events) ∧
    (progressFractions
      (search_artifacts okFetch [PyVal.str "s3://a"] "t").events).getLast? = some 1 := by
  refine ⟨(C5_progress_events okFetch [PyVal.str "s3://a"] "t").1, ?_⟩
  have h := (C5_progress_events okFetch [PyVal.str "s3://a"] "t").2
    (fun loc _ m i => okFetch_not_raised loc m i) (by decide)
  rw [h]
  have e1 : (searchS3Batches [PyVal.str "s3://a"]).length = 1 := rfl
  have e2 : num_s3_batches (filterLocations [PyVal.str "s3://a"]) = 1 := rfl
  rw [e1, e2]
  norm_num

/-! ### Large concrete inputs: the denominator bug and the lost batches -/

theorem padA_inj : Function.Injective padA := by
  intro i j h
  have hl := congrArg (fun s => s.data.length) h
  simp [padA] at hl
  omega

theorem padS3_inj : Function.Injective padS3 := by
  intro i j h
  have hl := congrArg (fun s => s.data.length) h
  simp [padS3] at hl
  omega

theorem padA_ne_s3x (i : Nat) : padA i ≠ "s3://x" := by
  intro h
  have hd : 'a' :: List.replicate i 'b' = "s3://x".data := congrArg String.data h
  rw [show "s3://x".data = ['s', '3', ':', '/', '/', 'x'] from rfl] at hd
  injection hd with h1 _
  exact absurd h1 (by decide)

theorem pyStartswith_padA (i : Nat) : pyStartswith (padA i) "s3://" = false := by
  show charsIsInit "s3://".data ('a' :: List.replicate i 'b') = false
  rw [show "s3://".data = ['s', '3', ':', '/', '/'] from rfl]
  rfl

theorem pyStartswith_padS3 (i : Nat) : pyStartswith (padS3 i) "s3://" = true := by
  show charsIsInit "s3://".data
    ('s' :: '3' :: ':' :: '/' :: '/' :: List.replicate i 'b') = true
  rw [show "s3://".data = ['s', '3', ':', '/', '/'] from rfl]
  show (('s' == 's') && _) = true
  simp [charsIsInit]

theorem search_progress_eq_loop (fetch : String → FetchOutcome) (locs : List PyVal)
    (term : String) :
    progressFractions (search_artifacts fetch locs term).events =
      progressFractions (searchLoopState fetch locs).events := by
  show progressFractions (searchFinalState fetch locs).events = _
  unfold searchFinalState
  rw [foldl_addNotAccessible]
  show progressFractions ((searchLoopState fetch locs).events ++ _) = _
  rw [progressFractions_append, progressFractions_map_const_error]
  simp

theorem c6input_filterMap :
    c6input.filterMap PyVal.asStr = (List.range 1024).map padA ++ ["s3://x"] := by
  unfold c6input
  rw [List.filterMap_append, List.filterMap_map]
  have h1 : (PyVal.asStr ∘ fun i => PyVal.str (padA i)) = fun i => some (padA i) := rfl
  rw [h1]
  have h2 : List.filterMap (fun i => some (padA i)) (List.range 1024) =
      (List.range 1024).map padA := by
    rw [show (fun i => some (padA i)) = some ∘ padA from rfl, List.filterMap_eq_map]
  rw [h2]
  rfl

theorem c6input_filterLocations :
    filterLocations c6input = (List.range 1024).map padA ++ ["s3://x"] := by
  unfold filterLocations
  rw [c6input_filterMap]
  apply List.dedup_eq_self.mpr
  apply List.nodup_append.mpr
  refine ⟨(List.nodup_range 1024).map padA_inj, by simp, ?_⟩
  intro a ha hb
  rcases List.mem_map.mp ha with ⟨i, _, rfl⟩
  have : padA i = "s3://x" := by simpa using hb
  exact padA_ne_s3x i this

theorem c6input_s3Locations :
    s3Locations (filterLocations c6input) = ["s3://x"] := by
  rw [c6input_filterLocations]
  show List.filter _ (_ ++ _) = _
  rw [List.filter_append]
  have hleft : ((List.range 1024).map padA).filter
      (fun loc => pyStartswith loc "s3://") = [] := by
    apply List.filter_eq_nil_iff.mpr
    intro a ha
    rcases List.mem_map.mp ha with ⟨i, _, rfl⟩
    simp [pyStartswith_padA]
  rw [hleft]
  rfl

/-- C6: the progress denominator in the code is
`max(1, len(locations) // 512)` over ALL filtered locations, not over the
s3 subset the claim (and the variable name `num_s3_batches`) intends: on
1024 non-s3 locations plus one s3 location the code uses denominator 2 while
the claimed formula gives 1, and the single batch therefore reports the
final progress fraction 1/2 instead of 1.0. -/
theorem C6_progress_denominator_bug :
    num_s3_batches (filterLocations c6input) = 2 ∧
    spec_num_batches c6input = 1 ∧
    progressFractions (search_artifacts okFetch c6input "t").events = [1 / 2] := by
  have hnum : num_s3_batches (filterLocations c6input) = 2 := by
    unfold num_s3_batches
    rw [c6input_filterLocations]
    simp [S3_BATCH_SIZE]
  have hspec : spec_num_batches c6input = 1 := by
    unfold spec_num_batches
    rw [c6input_s3Locations]
    rfl
  refine ⟨hnum, hspec, ?_⟩
  have hbatches : searchS3Batches c6input = [["s3://x"]] := by
    unfold searchS3Batches
    rw [c6input_s3Locations]
    rfl
  rw [search_progress_eq_loop]
  have hloopeq : searchLoopState okFetch c6input =
      runBatches okFetch 2 1 [["s3://x"]] ⟨[], [], []⟩ := by
    unfold searchLoopState
    rw [hbatches, hnum]
  have hloopok := runBatches_ok okFetch 2 [["s3://x"]] 1 ⟨[], [], []⟩
    (fun l _ m i => okFetch_not_raised l m i)
  rw [hloopeq, hloopok]
  show progressFractions ((⟨[], [], []⟩ : BatchState).events ++
    okBatchEvents okFetch 2 1 [["s3://x"]]) = _
  rw [progressFractions_append, progressFractions_okBatchEvents]
  show ([] : List Rat) ++ (List.range' 1 1).map (fun j : Nat => (j : Rat) / ((2 : Nat) : Rat)) =
    [1 / 2]
  norm_num

set_option maxRecDepth 1000 in
theorem c7input_filterMap :
    c7input.filterMap PyVal.asStr = (List.range 513).map padS3 := by
  unfold c7input
  rw [List.filterMap_map]
  have h1 : (PyVal.asStr ∘ fun i => PyVal.str (padS3 i)) = some ∘ padS3 := rfl
  rw [h1, List.filterMap_eq_map]

set_option maxRecDepth 1000 in
theorem c7input_filterLocations :
    filterLocations c7input = (List.range 513).map padS3 := by
  unfold filterLocations
  rw [c7input_filterMap]
  exact List.dedup_eq_self.mpr ((List.nodup_range 513).map padS3_inj)

set_option maxRecDepth 1000 in
theorem c7input_s3Locations :
    s3Locations (filterLocations c7input) = (List.range 513).map padS3 := by
  rw [c7input_filterLocations]
  apply List.filter_eq_self.mpr
  intro a ha
  rcases List.mem_map.mp ha with ⟨i, _, rfl⟩
  exact pyStartswith_padS3 i

set_option maxRecDepth 1000 in
theorem c7input_batches :
    searchS3Batches c7input = [(List.range 512).map padS3, [padS3 512]] := by
  unfold searchS3Batches
  rw [c7input_s3Locations]
  rw [batchiter_cons _ _ (by simp) (by norm_num [S3_BATCH_SIZE])]
  have htake : ((List.range 513).map padS3).take S3_BATCH_SIZE =
      (List.range 512).map padS3 := by
    rw [← List.map_take, List.take_range]
    rfl
  have hdrop : ((List.range 513).map padS3).drop S3_BATCH_SIZE = [padS3 512] := by
    rw [← List.map_drop]
    have h512 : (List.range 513).drop 512 = [512] := by
      have hr : List.range 513 = List.range 512 ++ [512] := List.range_succ 512
      rw [hr]
      exact List.drop_left' (by simp)
    rw [show S3_BATCH_SIZE = 512 from rfl, h512]
    rfl
  rw [htake, hdrop]
  rfl

theorem okEntries_okFetch (locs : List String) :
    okEntries okFetch locs = locs.map (fun l => (l, true, "hello")) := by
  induction locs with
  | nil => rfl
  | cons a rest ih =>
    simp [okEntries, List.filterMap_cons, okFetch, storeEntry?] at ih ⊢
    exact ih

theorem search_results_lookup (fetch : String → FetchOutcome) (locs : List PyVal)
    (term key : String) (h : key ∈ searchFinalLocations locs) :
    (search_artifacts fetch locs term).results.lookup key =
      some (evalEntry (searchFinalState fetch locs).fetched term key) := by
  show ((searchFinalLocations locs).map _).lookup key = _
  exact lookup_map_pair _ _ key h

theorem evalEntry_eq_of_lookup_some {fetched : List (String × Bool × String)}
    {key term : String} {b : Bool} {s : String}
    (h : fetched.lookup key = some (b, s)) :
    evalEntry fetched term key = ⟨b, s == term⟩ := by
  unfold evalEntry
  rw [h]

theorem runBatches_ok_init_fetched (fetch : String → FetchOutcome) (nb : Nat)
    (batches : List (List String))
    (h : ∀ loc ∈ batches.flatten, ∀ m i, fetch loc ≠ FetchOutcome.raised m i) :
    (runBatches fetch nb 1 batches ⟨[], [], []⟩).fetched =
      okEntries fetch batches.flatten := by
  rw [runBatches_ok fetch nb batches 1 ⟨[], [], []⟩ h]
  rfl

set_option maxRecDepth 2000 in
/-- C7: with 513 s3 locations, each of which is successfully fetched and
decodes to `"hello"` (equal to the search term), only the single location of
the final batch receives a result entry; the 512 locations of the first
batch — though successfully fetched, decoded and equal to the search term —
have no entry at all, because the batch loop variable shadows `locations`. -/
theorem C7_successful_fetch_lost_entries :
    (search_artifacts okFetch c7input "hello").results.map Prod.fst = [padS3 512] ∧
    padS3 0 ∈ filterLocations c7input ∧
    okFetch (padS3 0) = FetchOutcome.fetched (DecodeOutcome.value "hello") ∧
    (search_artifacts okFetch c7input "hello").results.lookup (padS3 0) = none ∧
    (search_artifacts okFetch c7input "hello").results.lookup (padS3 512) =
      some { included := true, matchesTerm := true } := by
  have hfin : searchFinalLocations c7input = [padS3 512] := by
    unfold searchFinalLocations
    rw [c7input_batches]
    rfl
  have hkeys : (search_artifacts okFetch c7input "hello").results.map Prod.fst =
      [padS3 512] := by
    rw [search_results_keys, hfin]
  refine ⟨hkeys, ?_, rfl, ?_, ?_⟩
  · rw [c7input_filterLocations]
    exact List.mem_map.mpr ⟨0, by simp, rfl⟩
  · apply lookup_eq_none
    rw [hkeys]
    intro hmem
    have h00 : padS3 0 = padS3 512 := by simpa using hmem
    have h0 : (0 : Nat) = 512 := padS3_inj h00
    exact absurd h0 (by decide)
  · have hother : (searchFinalLocations c7input).filter
        (fun loc => !(pyStartswith loc "s3://")) = [] := by
      rw [hfin]
      simp [pyStartswith_padS3]
    have hfs : searchFinalState okFetch c7input = searchLoopState okFetch c7input := by
      unfold searchFinalState
      rw [hother]
      exact List.foldl_nil
    have hflat : (searchS3Batches c7input).flatten = (List.range 513).map padS3 := by
      rw [show (searchS3Batches c7input).flatten = s3Locations (filterLocations c7input)
        from batchiter_flatten S3_BATCH_SIZE (by norm_num [S3_BATCH_SIZE]) _]
      exact c7input_s3Locations
    have hfetched : (searchLoopState okFetch c7input).fetched =
        ((List.range 513).map padS3).map (fun l => (l, true, "hello")) := by
      unfold searchLoopState
      rw [runBatches_ok_init_fetched okFetch (num_s3_batches (filterLocations c7input))
        (searchS3Batches c7input) (fun l _ m i => okFetch_not_raised l m i),
        hflat, okEntries_okFetch]
    have hlook : (((List.range 513).map padS3).map
        (fun l => (l, true, "hello"))).lookup (padS3 512) =
        some ((true : Bool), "hello") :=
      lookup_map_pair (fun _ => ((true : Bool), "hello")) _ (padS3 512)
        (List.mem_map.mpr ⟨512, by simp, rfl⟩)
    have hval : evalEntry (((List.range 513).map padS3).map
        (fun l => (l, true, "hello"))) "hello" (padS3 512) =
        { included := true, matchesTerm := true } := by
      rw [evalEntry_eq_of_lookup_some hlook]
      rfl
    calc (search_artifacts okFetch c7input "hello").results.lookup (padS3 512)
        = some (evalEntry (searchFinalState okFetch c7input).fetched "hello" (padS3 512)) :=
          search_results_lookup okFetch c7input "hello" (padS3 512) (by rw [hfin]; simp)
      _ = some { included := true, matchesTerm := true } := by
          rw [hfs, hfetched, hval]
